import Mathlib

/-!
# Verification of the underwater trash detection core pipeline

Shallow embedding of the per-frame detection-and-annotation pipeline of the
underwater trash detection app, together with its class registry and the
session buffer described by the design document.

Sources embedded:
* `src/trash_classes.py` — the class tables and lookups, and its
  `update_mapping_from_model` (which rebuilds the tables from the mapping's
  values in iteration order, without sorting);
* `src/app.py` — the same tables and lookups (embedded copy), its
  `update_mapping_from_model` (which sorts the mapping by class id),
  `process_video_file`, and `VideoTransformer._process_frame_cached`.

Modelling conventions:
* Python dicts are association lists in iteration (insertion) order;
* numeric confidences/coordinates (floats in the source) are rationals;
* OpenCV image buffers are modelled by a small heap (`Store`): buffer ids map
  to an `Img`, which records the decoded pixel content (`base`) plus the list
  of drawing commands applied to the buffer; `cv2.rectangle`/`cv2.putText`
  append a command to the targeted buffer, `frame.copy()` allocates a fresh
  buffer with the same content.  This makes buffer mutation explicit.
-/

namespace UTD

/-- BGR color triple, as in the source's `COLORS` table. -/
abbrev Color := Nat × Nat × Nat

/-- The module-level mutable tables of `trash_classes.py` / `app.py`
(`EXPECTED_CLASSES`, `DISPLAY_NAMES`, `COLORS`), gathered into one record of
registry state. -/
structure Registry where
  EXPECTED_CLASSES : List String
  DISPLAY_NAMES : List String
  COLORS : List Color
deriving DecidableEq

/-- The built-in default tables (`trash_classes.py` lines 8-30, identical copy
in `app.py` lines 19-41). -/
def defaultRegistry : Registry where
  EXPECTED_CLASSES := ["mask", "can", "cellphone", "electronics", "gbottle",
    "glove", "metal", "misc", "net", "pbag", "pbottle", "plastic", "rod",
    "sunglasses", "tyre"]
  DISPLAY_NAMES := ["Mask", "Can", "Cellphone", "Electronics", "Glass Bottle",
    "Glove", "Metal", "Misc", "Net", "Plastic Bag", "Plastic Bottle",
    "Plastic", "Rod", "Sunglasses", "Tyre"]
  COLORS := [(0, 255, 0), (255, 0, 0), (255, 255, 0), (0, 0, 255),
    (255, 255, 255), (0, 255, 255), (128, 128, 128), (255, 0, 255),
    (0, 128, 255), (0, 255, 128), (128, 0, 128), (255, 128, 0), (128, 0, 0),
    (255, 255, 128), (0, 128, 0)]

/-- `get_class_name` (`trash_classes.py` lines 32-36): table lookup guarded by
`0 <= class_id < len(EXPECTED_CLASSES)`, falling back to `f"Unknown_{id}"`. -/
def get_class_name (r : Registry) (class_id : Int) : String :=
  if 0 ≤ class_id ∧ class_id < (r.EXPECTED_CLASSES.length : Int) then
    r.EXPECTED_CLASSES.getD class_id.toNat ""
  else "Unknown_" ++ toString class_id

/-- `get_class_name_short` (`trash_classes.py` lines 38-42): same guard over
`DISPLAY_NAMES`. -/
def get_class_name_short (r : Registry) (class_id : Int) : String :=
  if 0 ≤ class_id ∧ class_id < (r.DISPLAY_NAMES.length : Int) then
    r.DISPLAY_NAMES.getD class_id.toNat ""
  else "Unknown_" ++ toString class_id

/-- `get_class_color` (`trash_classes.py` lines 44-48): same guard over
`COLORS`, falling back to the default green `(0, 255, 0)`. -/
def get_class_color (r : Registry) (class_id : Int) : Color :=
  if 0 ≤ class_id ∧ class_id < (r.COLORS.length : Int) then
    r.COLORS.getD class_id.toNat (0, 255, 0)
  else (0, 255, 0)

/-- Character-level recursion behind `pyTitle`: a letter is uppercased at the
start of a run of letters and lowercased inside the run; non-letters are
copied and end the current run. -/
def titleChars : List Char → Bool → List Char
  | [], _ => []
  | c :: cs, prevCased =>
    if c.isAlpha then
      (if prevCased then c.toLower else c.toUpper) :: titleChars cs true
    else c :: titleChars cs false

/-- Python's `str.title()`, restricted to the ASCII letters that occur in the
label sets in play. -/
def pyTitle (s : String) : String := String.mk (titleChars s.data false)

/-- Comparison used by `sorted(model_names_dict.items())`: Python compares the
`(id, name)` tuples lexicographically, which for a dict (distinct keys)
coincides with comparing the integer ids. -/
abbrev keyLe (a b : Int × String) : Prop := a.1 ≤ b.1

/-- `update_mapping_from_model` as embedded in `src/app.py` (lines 69-81):
a non-empty mapping is sorted by class id and both name tables are rebuilt
from it (`DISPLAY_NAMES` by title-casing); an empty mapping leaves the
registry unchanged (the `else` branch only emits a UI warning).  Python's
`sorted` is modelled by `List.insertionSort`, a stable comparison sort. -/
def App.update_mapping_from_model (model_names_dict : List (Int × String))
    (r : Registry) : Registry :=
  if model_names_dict ≠ [] then
    let sorted_names := List.insertionSort keyLe model_names_dict
    { r with
      EXPECTED_CLASSES := sorted_names.map Prod.snd
      DISPLAY_NAMES := sorted_names.map fun p => pyTitle p.2 }
  else r

/-- `update_mapping_from_model` from `src/trash_classes.py` (lines 69-82):
a non-empty (truthy) mapping rebuilds both tables from
`model_names.values()` in the dict's iteration order — no sorting.  The
source's non-string branch (`str(name).title()`) coincides with
`name.title()` on the string values modelled here. -/
def TrashClasses.update_mapping_from_model (model_names : List (Int × String))
    (r : Registry) : Registry :=
  if model_names ≠ [] then
    { r with
      EXPECTED_CLASSES := model_names.map Prod.snd
      DISPLAY_NAMES := model_names.map fun p => pyTitle p.2 }
  else r

/-- Python's `int(...)` on a (rational-modelled) float: truncation toward
zero. -/
def pyInt (q : ℚ) : Int := if q < 0 then q.ceil else q.floor

/-- The `f"{confidence:.2f}"` label fragment, modelled on rationals: round
`100·|q|` to the nearest integer (computed from numerator and denominator)
and print with exactly two decimals.  (The binary-float tie-breaking of C
`printf` is below the resolution of any claim here.) -/
def fmt2f (q : ℚ) : String :=
  let sign := if q.num < 0 then "-" else ""
  let a : Int := if q.num < 0 then -q.num else q.num
  let n : Int := (200 * a + (q.den : Int)) / (2 * (q.den : Int))
  let whole := n / 100
  let frac := n % 100
  sign ++ toString whole ++ "." ++ (if frac < 10 then "0" else "") ++
    toString frac

/-- One raw model detection (`box.xyxy[0]`, `box.conf[0]`, `box.cls[0]`). -/
structure Box where
  x1 : ℚ
  y1 : ℚ
  x2 : ℚ
  y2 : ℚ
  conf : ℚ
  cls : Int
deriving DecidableEq

/-- The model's raw output for one frame: a list of result objects, each
carrying `result.boxes` which may be `None`. -/
abbrev Results := List (Option (List Box))

/-- All raw detections of a frame in model-native order (the order the nested
`for result in results: for box in boxes:` loops visit them). -/
def rawBoxes (results : Results) : List Box :=
  results.flatMap fun ob => ob.getD []

/-- One OpenCV drawing call recorded against a buffer. -/
inductive DrawCmd where
  | rectangle (p1 p2 : Int × Int) (color : Color) (thickness : Nat)
  | putText (label : String) (org : Int × Int) (fontScale : ℚ) (color : Color)
      (thickness : Nat)
deriving DecidableEq

/-- An image buffer: the decoded pixel content (identified abstractly by
`base`) plus the drawing commands applied to this buffer so far. -/
structure Img where
  base : Nat
  ops : List DrawCmd
deriving DecidableEq

/-- The heap of image buffers: buffer ids below `next` are allocated. -/
structure Store where
  mem : Nat → Img
  next : Nat

/-- The empty heap. -/
def emptyStore : Store where
  mem := fun _ => { base := 0, ops := [] }
  next := 0

/-- Allocate a fresh buffer holding `v` (models `frame.copy()` and the decode
of a new frame); returns the new heap and the fresh buffer id. -/
def Store.alloc (σ : Store) (v : Img) : Store × Nat :=
  ({ mem := fun i => if i = σ.next then v else σ.mem i, next := σ.next + 1 },
    σ.next)

/-- Apply one drawing call to buffer `id` (models `cv2.rectangle` /
`cv2.putText`, which mutate the passed buffer in place). -/
def Store.draw (σ : Store) (id : Nat) (c : DrawCmd) : Store :=
  { σ with
    mem := fun i =>
      if i = id then { base := (σ.mem i).base, ops := (σ.mem i).ops ++ [c] }
      else σ.mem i }

/-- Apply a list of drawing calls in order to buffer `id`. -/
def Store.drawAll (σ : Store) (id : Nat) (cs : List DrawCmd) : Store :=
  cs.foldl (fun s c => s.draw id c) σ

/-- The two drawing calls the loop body issues for one accepted detection
(`app.py` lines 162-168 and 238-244): a rectangle at the integer-cast box
corners and the `"<short_name>: <conf:.2f>"` label 10 pixels above the top
edge, both in the class color. -/
def boxCmds (r : Registry) (b : Box) : List DrawCmd :=
  let class_name := get_class_name_short r b.cls
  let color := get_class_color r b.cls
  let label := class_name ++ ": " ++ fmt2f b.conf
  [DrawCmd.rectangle (pyInt b.x1, pyInt b.y1) (pyInt b.x2, pyInt b.y2) color 2,
    DrawCmd.putText label (pyInt b.x1, pyInt b.y1 - 10) (mkRat 1 2) color 2]

/-- The inner `for box in boxes:` loop (`app.py` lines 151-170 and 227-246):
break once `detection_count >= max_detections`; skip a box with
`confidence < confidence_threshold`; otherwise draw rectangle and label into
the working buffer `pid` and increment the count. -/
def boxLoop (r : Registry) (τ : ℚ) (K : Nat) (pid : Nat) :
    Store → List Box → Nat → Store × Nat
  | σ, [], count => (σ, count)
  | σ, b :: rest, count =>
    if K ≤ count then (σ, count)
    else if b.conf < τ then boxLoop r τ K pid σ rest count
    else
      let σ1 := σ.draw pid
        (DrawCmd.rectangle (pyInt b.x1, pyInt b.y1) (pyInt b.x2, pyInt b.y2)
          (get_class_color r b.cls) 2)
      let label := get_class_name_short r b.cls ++ ": " ++ fmt2f b.conf
      let σ2 := σ1.draw pid
        (DrawCmd.putText label (pyInt b.x1, pyInt b.y1 - 10) (mkRat 1 2)
          (get_class_color r b.cls) 2)
      boxLoop r τ K pid σ2 rest (count + 1)

/-- The outer `for result in results:` loop (`app.py` lines 148-150 and
224-226): a `None` boxes attribute is skipped; `detection_count` persists
across result groups (the `break` only leaves the inner loop). -/
def resultsLoop (r : Registry) (τ : ℚ) (K : Nat) (pid : Nat) :
    Store → Results → Nat → Store × Nat
  | σ, [], count => (σ, count)
  | σ, none :: rest, count => resultsLoop r τ K pid σ rest count
  | σ, some boxes :: rest, count =>
    let out := boxLoop r τ K pid σ boxes count
    resultsLoop r τ K pid out.1 rest out.2

/-- The shared per-frame annotation step: run the model on the frame buffer,
copy the frame (`processed_frame = frame.copy()`), and run the detection loop
drawing into the copy.  This is the body both of `process_video_file`'s
selected-frame branch (`app.py` lines 143-173) and of
`VideoTransformer._process_frame_cached` (`app.py` lines 217-255) — the two
are line-for-line identical.  Returns the final heap, the working buffer id,
and `detection_count`. -/
def process_frame (r : Registry) (τ : ℚ) (K : Nat) (model : Img → Results)
    (σ : Store) (frameId : Nat) : Store × Nat × Nat :=
  let results := model (σ.mem frameId)
  let alloc := σ.alloc (σ.mem frameId)
  let out := resultsLoop r τ K alloc.2 alloc.1 results 0
  (out.1, alloc.2, out.2)

/-- The detection parameters captured by `VideoTransformer.__init__`
(`app.py` lines 193-198). -/
structure VideoTransformer where
  confidence_threshold : ℚ
  max_detections : Nat

/-- `VideoTransformer._process_frame_cached` (`app.py` lines 217-255): the
webcam path's per-frame step, whose loop body is identical to the one in
`process_video_file` and is therefore shared with it here. -/
def VideoTransformer.process_frame_cached (self : VideoTransformer)
    (r : Registry) (model : Img → Results) (σ : Store) (imgId : Nat) :
    Store × Nat × Nat :=
  process_frame r self.confidence_threshold self.max_detections model σ imgId

/-- The mutable state of `process_video_file`'s frame loop (`app.py` lines
129-177).  `out_original` / `out_detected` are the frames written to the two
`VideoWriter`s.  `frame_ids` (the buffer each decoded frame was stored in)
and `processed_numbers` (the 0-based numbers of the frames that were run
through the model) are ghost observations used only to state properties. -/
structure RunState where
  σ : Store
  frame_count : Nat
  processed_frames_count : Nat
  out_original : List Img
  out_detected : List Img
  frame_ids : List Nat
  processed_numbers : List Nat

/-- One iteration of the `while True: ret, frame = cap.read()` loop of
`process_video_file` (`app.py` lines 135-177): the decoded frame is written
to `out_original` and counted by `frame_count`; a frame with
`frame_count % frame_skip == 0` is additionally copied, annotated via the
detection loop, written to `out_detected`, and counted by
`processed_frames_count`. -/
def videoStep (r : Registry) (τ : ℚ) (K : Nat) (S : Nat)
    (model : Img → Results) (frame : Img) (s : RunState) : RunState :=
  let a := s.σ.alloc frame
  let s1 : RunState :=
    { s with
      σ := a.1
      out_original := s.out_original ++ [frame]
      frame_ids := s.frame_ids ++ [a.2] }
  let s2 : RunState :=
    if s.frame_count % S = 0 then
      let out := process_frame r τ K model s1.σ a.2
      { s1 with
        σ := out.1
        out_detected := s1.out_detected ++ [out.1.mem out.2.1]
        processed_frames_count := s1.processed_frames_count + 1
        processed_numbers := s1.processed_numbers ++ [s.frame_count] }
    else s1
  { s2 with frame_count := s.frame_count + 1 }

/-- The whole frame loop of `process_video_file`: one `videoStep` per
decodable frame, in source order. -/
def videoLoop (r : Registry) (τ : ℚ) (K : Nat) (S : Nat)
    (model : Img → Results) : List Img → RunState → RunState
  | [], s => s
  | frame :: rest, s =>
    videoLoop r τ K S model rest (videoStep r τ K S model frame s)

/-- Loop state at entry of `process_video_file`'s frame loop
(`frame_count = 0`, `processed_frames_count = 0`, empty writers). -/
def initRunState (σ : Store) : RunState where
  σ := σ
  frame_count := 0
  processed_frames_count := 0
  out_original := []
  out_detected := []
  frame_ids := []
  processed_numbers := []

/-- The summary dictionary `process_video_file` returns (`app.py` lines
186-189); `fps`/`width`/`height` come from the opaque codec and are not
modelled. -/
structure VideoProps where
  total_frames : Nat
  processed_frames_count : Nat
deriving DecidableEq

/-- `process_video_file` (`app.py` lines 103-189) on a source whose frames
decode to the list `frames`: run the frame loop from the initial state and
report the metadata.  The container's `CAP_PROP_FRAME_COUNT` is modelled as
the number of decodable frames. -/
def process_video_file (r : Registry) (τ : ℚ) (K : Nat) (S : Nat)
    (model : Img → Results) (frames : List Img) (σ : Store) :
    RunState × VideoProps :=
  let s := videoLoop r τ K S model frames (initRunState σ)
  (s, { total_frames := frames.length
        processed_frames_count := s.processed_frames_count })

/-- Modelled from the spec (§3 "Session", §4.3 "SessionBuffer"): the session
payload — annotated frame buffers plus playback metadata.  No session-buffer
implementation exists under `src/`; only the spec describes it. -/
structure Session where
  frames : List Img
  fps : Nat
  width : Nat
  height : Nat
  total_source_frames : Nat
deriving DecidableEq

/-- Modelled from the spec (§4.3): the process-wide map from session token to
session, as an association list in insertion order. -/
abbrev SessionBuffer := List (Nat × Session)

/-- Modelled from the spec (§4.3 `take`): look the token up; if present,
remove the entry and return it, otherwise return `none` (`SessionNotFound`)
and leave the buffer unchanged.  No implementation exists under `src/`; this
follows the spec's words "fails with SessionNotFound if token is absent or
was already drained; otherwise atomically removes and returns the entry". -/
def SessionBuffer.take (token : Nat) : SessionBuffer → Option Session × SessionBuffer
  | [] => (none, [])
  | e :: rest =>
    if e.1 = token then (some e.2, rest)
    else
      let out := SessionBuffer.take token rest
      (out.1, e :: out.2)

/-- Modelled from the spec (§4.3 `create`): store an entry under a token not
already in use (standing in for the 122-bit random uuid, whose collisions
the spec deems negligible) and return the token. -/
def SessionBuffer.create (frames : List Img) (fps width height : Nat)
    (total_source_frames : Nat) (buf : SessionBuffer) : SessionBuffer × Nat :=
  let token := (buf.map Prod.fst).foldr max 0 + 1
  let entry : Session :=
    { frames := frames
      fps := fps
      width := width
      height := height
      total_source_frames := total_source_frames }
  ((token, entry) :: buf, token)

/-- The detections the loop accepts for one frame, stated declaratively:
those with confidence at least τ, in model order, truncated at K. -/
def acceptedBoxes (τ : ℚ) (K : Nat) (boxes : List Box) : List Box :=
  (boxes.filter fun b => decide (τ ≤ b.conf)).take K

/-- Example detection at the origin with class id 0 and the given confidence
(used to instantiate theorems at the spec's worked examples). -/
def exBox (c : ℚ) : Box where
  x1 := 0
  y1 := 0
  x2 := 0
  y2 := 0
  conf := c
  cls := 0

/-- Example decoded frame (used to instantiate theorems). -/
def exImg : Img where
  base := 5
  ops := []

/-- Example store holding `exImg` in buffer 0 (used to instantiate
theorems). -/
def exStore : Store := (emptyStore.alloc exImg).1

/-- Example 16-label mapping with ids 0..15 (used to instantiate theorems
about label sets larger than the 15-color palette). -/
def exMap16 : List (Int × String) :=
  (List.range 16).map fun i => ((i : Int), "c" ++ toString i)

/-- Example session payload (used to instantiate theorems). -/
def exSession : Session where
  frames := []
  fps := 30
  width := 640
  height := 480
  total_source_frames := 23

/-- Invariant of the video loop used to state that decoded frame buffers are
never mutated: every buffer recorded in `frame_ids` is allocated and still
holds exactly the frame that was written to `out_original` alongside it. -/
def FramesIntact (s : RunState) : Prop :=
  s.frame_ids.length = s.out_original.length ∧
  ∀ p ∈ s.frame_ids.zip s.out_original, p.1 < s.σ.next ∧ s.σ.mem p.1 = p.2

/-! ## Store lemmas -/

theorem Store.draw_next (σ : Store) (id : Nat) (c : DrawCmd) :
    (σ.draw id c).next = σ.next := rfl

theorem Store.draw_mem_self (σ : Store) (id : Nat) (c : DrawCmd) :
    (σ.draw id c).mem id =
      { base := (σ.mem id).base, ops := (σ.mem id).ops ++ [c] } := by
  simp [Store.draw]

theorem Store.draw_mem_ne (σ : Store) (id : Nat) (c : DrawCmd) {q : Nat}
    (h : q ≠ id) : (σ.draw id c).mem q = σ.mem q := by
  simp [Store.draw, h]

theorem Store.drawAll_nil (σ : Store) (id : Nat) : σ.drawAll id [] = σ := rfl

theorem Store.drawAll_cons (σ : Store) (id : Nat) (c : DrawCmd)
    (cs : List DrawCmd) : σ.drawAll id (c :: cs) = (σ.draw id c).drawAll id cs :=
  rfl

theorem Store.drawAll_append (σ : Store) (id : Nat) (cs ds : List DrawCmd) :
    σ.drawAll id (cs ++ ds) = (σ.drawAll id cs).drawAll id ds := by
  simp [Store.drawAll, List.foldl_append]

theorem Store.drawAll_next (σ : Store) (id : Nat) (cs : List DrawCmd) :
    (σ.drawAll id cs).next = σ.next := by
  induction cs generalizing σ with
  | nil => rfl
  | cons c cs ih => rw [Store.drawAll_cons, ih, Store.draw_next]

theorem Store.drawAll_mem_self (σ : Store) (id : Nat) (cs : List DrawCmd) :
    (σ.drawAll id cs).mem id =
      { base := (σ.mem id).base, ops := (σ.mem id).ops ++ cs } := by
  induction cs generalizing σ with
  | nil => simp [Store.drawAll_nil]
  | cons c cs ih =>
    rw [Store.drawAll_cons, ih, Store.draw_mem_self]
    simp

theorem Store.drawAll_mem_ne (σ : Store) (id : Nat) (cs : List DrawCmd)
    {q : Nat} (h : q ≠ id) : (σ.drawAll id cs).mem q = σ.mem q := by
  induction cs generalizing σ with
  | nil => rfl
  | cons c cs ih => rw [Store.drawAll_cons, ih, Store.draw_mem_ne σ id c h]

theorem Store.alloc_snd (σ : Store) (v : Img) : (σ.alloc v).2 = σ.next := rfl

theorem Store.alloc_next (σ : Store) (v : Img) :
    (σ.alloc v).1.next = σ.next + 1 := rfl

theorem Store.alloc_mem_self (σ : Store) (v : Img) :
    (σ.alloc v).1.mem σ.next = v := by
  simp [Store.alloc]

theorem Store.alloc_mem_ne (σ : Store) (v : Img) {q : Nat} (h : q ≠ σ.next) :
    (σ.alloc v).1.mem q = σ.mem q := by
  simp [Store.alloc, h]

/-! ## The detection loop accepts the threshold-filtered prefix of length K -/

theorem boxLoop_eq (r : Registry) (τ : ℚ) (K : Nat) (pid : Nat)
    (boxes : List Box) : ∀ (σ : Store) (count : Nat),
    boxLoop r τ K pid σ boxes count =
      (σ.drawAll pid ((acceptedBoxes τ (K - count) boxes).flatMap (boxCmds r)),
        count + (acceptedBoxes τ (K - count) boxes).length) := by
  induction boxes with
  | nil => intro σ count; simp [boxLoop, acceptedBoxes, Store.drawAll_nil]
  | cons b rest ih =>
    intro σ count
    by_cases hK : K ≤ count
    · have h0 : K - count = 0 := Nat.sub_eq_zero_of_le hK
      simp [boxLoop, hK, acceptedBoxes, h0, Store.drawAll_nil]
    · by_cases hc : b.conf < τ
      · have hfilter : (decide (τ ≤ b.conf)) = false := by
          simp [not_le.mpr hc]
        simp only [boxLoop, if_neg hK, if_pos hc]
        rw [ih σ count]
        simp [acceptedBoxes, List.filter_cons, hfilter]
      · have hfilter : (decide (τ ≤ b.conf)) = true := by
          simp [not_lt.mp hc]
        have hsub : K - count = (K - (count + 1)) + 1 := by omega
        simp only [boxLoop, if_neg hK, if_neg hc]
        rw [ih _ (count + 1)]
        have hacc : acceptedBoxes τ (K - count) (b :: rest) =
            b :: acceptedBoxes τ (K - (count + 1)) rest := by
          simp [acceptedBoxes, List.filter_cons, hfilter, hsub,
            List.take_succ_cons]
        rw [hacc]
        simp only [Prod.mk.injEq]
        refine ⟨?_, ?_⟩
        · rw [List.flatMap_cons, Store.drawAll_append]
          rfl
        · simp; omega

theorem resultsLoop_eq (r : Registry) (τ : ℚ) (K : Nat) (pid : Nat)
    (results : Results) : ∀ (σ : Store) (count : Nat),
    resultsLoop r τ K pid σ results count =
      (σ.drawAll pid
          ((acceptedBoxes τ (K - count) (rawBoxes results)).flatMap (boxCmds r)),
        count + (acceptedBoxes τ (K - count) (rawBoxes results)).length) := by
  induction results with
  | nil => intro σ count; simp [resultsLoop, rawBoxes, acceptedBoxes,
      Store.drawAll_nil]
  | cons ob rest ih =>
    intro σ count
    match ob with
    | none =>
      rw [show resultsLoop r τ K pid σ (none :: rest) count =
        resultsLoop r τ K pid σ rest count from rfl, ih]
      simp [rawBoxes]
    | some boxes =>
      rw [show resultsLoop r τ K pid σ (some boxes :: rest) count =
        resultsLoop r τ K pid (boxLoop r τ K pid σ boxes count).1 rest
          (boxLoop r τ K pid σ boxes count).2 from rfl]
      rw [boxLoop_eq, ih]
      have hraw : rawBoxes (some boxes :: rest) = boxes ++ rawBoxes rest := by
        simp [rawBoxes]
      set f1 := boxes.filter (fun b => decide (τ ≤ b.conf)) with hf1
      set f2 := (rawBoxes rest).filter (fun b => decide (τ ≤ b.conf)) with hf2
      have hn1 : (acceptedBoxes τ (K - count) boxes).length =
          min (K - count) f1.length := by
        simp [acceptedBoxes, hf1]
      have hcap : K - (count + (acceptedBoxes τ (K - count) boxes).length) =
          (K - count) - f1.length := by omega
      have hsplit : acceptedBoxes τ (K - count) (rawBoxes (some boxes :: rest)) =
          acceptedBoxes τ (K - count) boxes ++
            acceptedBoxes τ ((K - count) - f1.length) (rawBoxes rest) := by
        simp only [acceptedBoxes, hraw, List.filter_append, ← hf1, ← hf2]
        rw [List.take_append_eq_append_take]
      rw [hcap, hsplit]
      simp only [Prod.mk.injEq]
      refine ⟨?_, ?_⟩
      · rw [List.flatMap_append, Store.drawAll_append]
      · simp only [List.length_append]
        omega

/-! ## Per-frame annotation step -/

theorem process_frame_pid (r : Registry) (τ : ℚ) (K : Nat)
    (model : Img → Results) (σ : Store) (f : Nat) :
    (process_frame r τ K model σ f).2.1 = σ.next := rfl

theorem process_frame_next (r : Registry) (τ : ℚ) (K : Nat)
    (model : Img → Results) (σ : Store) (f : Nat) :
    (process_frame r τ K model σ f).1.next = σ.next + 1 := by
  simp only [process_frame, resultsLoop_eq]
  rw [Store.drawAll_next, Store.alloc_next]

theorem process_frame_mem_pid (r : Registry) (τ : ℚ) (K : Nat)
    (model : Img → Results) (σ : Store) (f : Nat) :
    (process_frame r τ K model σ f).1.mem σ.next =
      { base := (σ.mem f).base
        ops := (σ.mem f).ops ++
          (acceptedBoxes τ K (rawBoxes (model (σ.mem f)))).flatMap (boxCmds r) } := by
  simp only [process_frame, resultsLoop_eq]
  rw [Store.alloc_snd, Store.drawAll_mem_self, Store.alloc_mem_self]
  simp

theorem process_frame_count (r : Registry) (τ : ℚ) (K : Nat)
    (model : Img → Results) (σ : Store) (f : Nat) :
    (process_frame r τ K model σ f).2.2 =
      (acceptedBoxes τ K (rawBoxes (model (σ.mem f)))).length := by
  simp [process_frame, resultsLoop_eq]

theorem process_frame_mem_ne (r : Registry) (τ : ℚ) (K : Nat)
    (model : Img → Results) (σ : Store) (f : Nat) {q : Nat} (h : q ≠ σ.next) :
    (process_frame r τ K model σ f).1.mem q = σ.mem q := by
  simp only [process_frame, resultsLoop_eq]
  rw [Store.alloc_snd, Store.drawAll_mem_ne _ _ _ h, Store.alloc_mem_ne _ _ h]

/-! ## Video loop -/

theorem videoStep_frame_count (r : Registry) (τ : ℚ) (K S : Nat)
    (model : Img → Results) (frame : Img) (s : RunState) :
    (videoStep r τ K S model frame s).frame_count = s.frame_count + 1 := by
  simp only [videoStep]

theorem videoStep_out_original (r : Registry) (τ : ℚ) (K S : Nat)
    (model : Img → Results) (frame : Img) (s : RunState) :
    (videoStep r τ K S model frame s).out_original =
      s.out_original ++ [frame] := by
  simp only [videoStep]
  by_cases hmod : s.frame_count % S = 0 <;> simp [hmod]

theorem videoStep_frame_ids (r : Registry) (τ : ℚ) (K S : Nat)
    (model : Img → Results) (frame : Img) (s : RunState) :
    (videoStep r τ K S model frame s).frame_ids =
      s.frame_ids ++ [s.σ.next] := by
  simp only [videoStep]
  by_cases hmod : s.frame_count % S = 0 <;> simp [hmod, Store.alloc_snd]

theorem videoStep_processed_numbers (r : Registry) (τ : ℚ) (K S : Nat)
    (model : Img → Results) (frame : Img) (s : RunState) :
    (videoStep r τ K S model frame s).processed_numbers =
      s.processed_numbers ++
        (if s.frame_count % S = 0 then [s.frame_count] else []) := by
  simp only [videoStep]
  by_cases hmod : s.frame_count % S = 0 <;> simp [hmod]

theorem videoStep_processed_frames_count (r : Registry) (τ : ℚ) (K S : Nat)
    (model : Img → Results) (frame : Img) (s : RunState) :
    (videoStep r τ K S model frame s).processed_frames_count =
      s.processed_frames_count +
        (if s.frame_count % S = 0 then 1 else 0) := by
  simp only [videoStep]
  by_cases hmod : s.frame_count % S = 0 <;> simp [hmod]

theorem videoStep_out_detected_length (r : Registry) (τ : ℚ) (K S : Nat)
    (model : Img → Results) (frame : Img) (s : RunState) :
    (videoStep r τ K S model frame s).out_detected.length =
      s.out_detected.length +
        (if s.frame_count % S = 0 then 1 else 0) := by
  simp only [videoStep]
  by_cases hmod : s.frame_count % S = 0 <;> simp [hmod]

theorem videoStep_sigma (r : Registry) (τ : ℚ) (K S : Nat)
    (model : Img → Results) (frame : Img) (s : RunState) :
    (videoStep r τ K S model frame s).σ =
      if s.frame_count % S = 0 then
        (process_frame r τ K model (s.σ.alloc frame).1 (s.σ.alloc frame).2).1
      else (s.σ.alloc frame).1 := by
  simp only [videoStep]
  by_cases hmod : s.frame_count % S = 0 <;> simp [hmod]

theorem videoStep_next_ge (r : Registry) (τ : ℚ) (K S : Nat)
    (model : Img → Results) (frame : Img) (s : RunState) :
    s.σ.next + 1 ≤ (videoStep r τ K S model frame s).σ.next := by
  rw [videoStep_sigma]
  split_ifs
  · rw [Store.alloc_snd, process_frame_next, Store.alloc_next]
    omega
  · rw [Store.alloc_next]

theorem videoStep_mem_lt (r : Registry) (τ : ℚ) (K S : Nat)
    (model : Img → Results) (frame : Img) (s : RunState) {q : Nat}
    (h : q < s.σ.next) :
    (videoStep r τ K S model frame s).σ.mem q = s.σ.mem q := by
  have hne : q ≠ s.σ.next := Nat.ne_of_lt h
  rw [videoStep_sigma]
  split_ifs
  · have hne1 : q ≠ (s.σ.alloc frame).1.next := by
      rw [Store.alloc_next]; omega
    rw [process_frame_mem_ne _ _ _ _ _ _ hne1, Store.alloc_mem_ne _ _ hne]
  · exact Store.alloc_mem_ne _ _ hne

theorem videoStep_mem_new (r : Registry) (τ : ℚ) (K S : Nat)
    (model : Img → Results) (frame : Img) (s : RunState) :
    (videoStep r τ K S model frame s).σ.mem s.σ.next = frame := by
  rw [videoStep_sigma]
  split_ifs
  · have hne1 : s.σ.next ≠ (s.σ.alloc frame).1.next := by
      rw [Store.alloc_next]; omega
    rw [process_frame_mem_ne _ _ _ _ _ _ hne1, Store.alloc_mem_self]
  · exact Store.alloc_mem_self _ _

theorem videoLoop_counts (r : Registry) (τ : ℚ) (K : Nat) (S : Nat)
    (model : Img → Results) (frames : List Img) : ∀ (s : RunState),
    (videoLoop r τ K S model frames s).frame_count =
        s.frame_count + frames.length ∧
    (videoLoop r τ K S model frames s).out_original =
        s.out_original ++ frames ∧
    (videoLoop r τ K S model frames s).processed_numbers =
        s.processed_numbers ++
          (List.range' s.frame_count frames.length).filter
            (fun i => decide (i % S = 0)) ∧
    (videoLoop r τ K S model frames s).processed_frames_count =
        s.processed_frames_count +
          ((List.range' s.frame_count frames.length).filter
            (fun i => decide (i % S = 0))).length ∧
    (videoLoop r τ K S model frames s).out_detected.length =
        s.out_detected.length +
          ((List.range' s.frame_count frames.length).filter
            (fun i => decide (i % S = 0))).length := by
  induction frames with
  | nil => intro s; simp [videoLoop]
  | cons frame rest ih =>
    intro s
    obtain ⟨h1, h2, h3, h4, h5⟩ := ih (videoStep r τ K S model frame s)
    rw [show videoLoop r τ K S model (frame :: rest) s =
      videoLoop r τ K S model rest (videoStep r τ K S model frame s) from rfl]
    rw [h1, h2, h3, h4, h5, videoStep_frame_count, videoStep_out_original,
      videoStep_processed_numbers, videoStep_processed_frames_count,
      videoStep_out_detected_length]
    rw [List.length_cons, List.range'_succ, List.filter_cons]
    by_cases hmod : s.frame_count % S = 0
    · simp [hmod]
      omega
    · simp [hmod]
      omega

theorem videoLoop_next_ge (r : Registry) (τ : ℚ) (K : Nat) (S : Nat)
    (model : Img → Results) (frames : List Img) : ∀ (s : RunState),
    s.σ.next ≤ (videoLoop r τ K S model frames s).σ.next := by
  induction frames with
  | nil => intro s; exact Nat.le_refl _
  | cons frame rest ih =>
    intro s
    calc s.σ.next ≤ (videoStep r τ K S model frame s).σ.next :=
          Nat.le_of_succ_le (videoStep_next_ge r τ K S model frame s)
      _ ≤ _ := ih (videoStep r τ K S model frame s)

theorem videoLoop_mem_lt (r : Registry) (τ : ℚ) (K : Nat) (S : Nat)
    (model : Img → Results) (frames : List Img) : ∀ (s : RunState) (q : Nat),
    q < s.σ.next → (videoLoop r τ K S model frames s).σ.mem q = s.σ.mem q := by
  induction frames with
  | nil => intro s q _; rfl
  | cons frame rest ih =>
    intro s q hq
    have hq1 : q < (videoStep r τ K S model frame s).σ.next :=
      Nat.lt_of_lt_of_le hq
        (Nat.le_of_succ_le (videoStep_next_ge r τ K S model frame s))
    rw [show videoLoop r τ K S model (frame :: rest) s =
      videoLoop r τ K S model rest (videoStep r τ K S model frame s) from rfl]
    rw [ih _ q hq1, videoStep_mem_lt r τ K S model frame s hq]

theorem videoLoop_intact (r : Registry) (τ : ℚ) (K : Nat) (S : Nat)
    (model : Img → Results) (frames : List Img) : ∀ (s : RunState),
    FramesIntact s → FramesIntact (videoLoop r τ K S model frames s) := by
  induction frames with
  | nil => intro s h; exact h
  | cons frame rest ih =>
    intro s h
    rw [show videoLoop r τ K S model (frame :: rest) s =
      videoLoop r τ K S model rest (videoStep r τ K S model frame s) from rfl]
    refine ih _ ?_
    obtain ⟨hlen, hmem⟩ := h
    constructor
    · rw [videoStep_frame_ids, videoStep_out_original]
      simp [hlen]
    · intro p hp
      rw [videoStep_frame_ids, videoStep_out_original,
        List.zip_append hlen] at hp
      rcases List.mem_append.mp hp with hold | hnew
      · obtain ⟨hlt, heq⟩ := hmem p hold
        refine ⟨?_, ?_⟩
        · exact Nat.lt_of_lt_of_le hlt
            (Nat.le_of_succ_le (videoStep_next_ge r τ K S model frame s))
        · rw [videoStep_mem_lt r τ K S model frame s hlt, heq]
      · have hpair : p = (s.σ.next, frame) := by
          simpa using hnew
        subst hpair
        refine ⟨videoStep_next_ge r τ K S model frame s, ?_⟩
        exact videoStep_mem_new r τ K S model frame s

/-! ## Session buffer -/

theorem SessionBuffer.take_not_mem (token : Nat) : ∀ (buf : SessionBuffer),
    token ∉ buf.map Prod.fst → SessionBuffer.take token buf = (none, buf) := by
  intro buf
  induction buf with
  | nil => intro _; rfl
  | cons e rest ih =>
    intro h
    rw [List.map_cons, List.mem_cons] at h
    push_neg at h
    have hne : ¬ e.1 = token := fun hh => h.1 hh.symm
    simp only [SessionBuffer.take, if_neg hne, ih h.2]

theorem SessionBuffer.take_mem (token : Nat) (s : Session) :
    ∀ (buf : SessionBuffer), (buf.map Prod.fst).Nodup → (token, s) ∈ buf →
    (SessionBuffer.take token buf).1 = some s ∧
    token ∉ (SessionBuffer.take token buf).2.map Prod.fst := by
  intro buf
  induction buf with
  | nil => intro _ hm; cases hm
  | cons e rest ih =>
    intro hnd hm
    rw [List.map_cons, List.nodup_cons] at hnd
    obtain ⟨hnotin, hnd'⟩ := hnd
    by_cases he : e.1 = token
    · have hs2 : e.2 = s := by
        rcases List.mem_cons.mp hm with heq | hmem
        · rw [← heq]
        · exact absurd (List.mem_map.mpr ⟨(token, s), hmem, rfl⟩)
            (he ▸ hnotin)
      refine ⟨?_, ?_⟩
      · simp [SessionBuffer.take, if_pos he, hs2]
      · simp only [SessionBuffer.take, if_pos he]
        exact he ▸ hnotin
    · have hmem : (token, s) ∈ rest := by
        rcases List.mem_cons.mp hm with heq | hmem
        · exact absurd (congrArg Prod.fst heq.symm) he
        · exact hmem
      obtain ⟨ih1, ih2⟩ := ih hnd' hmem
      simp only [SessionBuffer.take, if_neg he]
      refine ⟨ih1, ?_⟩
      rw [List.map_cons, List.mem_cons]
      push_neg
      exact ⟨fun hh => he hh.symm, ih2⟩

/-! ## Registry lookup helpers -/

theorem get_class_name_natCast (r : Registry) (i : Nat)
    (h : i < r.EXPECTED_CLASSES.length) :
    get_class_name r (i : Int) = r.EXPECTED_CLASSES.getD i "" := by
  have h0 : (0 : Int) ≤ (i : Int) := Int.natCast_nonneg i
  have h1 : (i : Int) < (r.EXPECTED_CLASSES.length : Int) := by exact_mod_cast h
  simp [get_class_name, h0, h1, Int.toNat_natCast]

theorem get_class_color_natCast (r : Registry) (i : Nat)
    (h : i < r.COLORS.length) :
    get_class_color r (i : Int) = r.COLORS.getD i (0, 255, 0) := by
  have h0 : (0 : Int) ≤ (i : Int) := Int.natCast_nonneg i
  have h1 : (i : Int) < (r.COLORS.length : Int) := by exact_mod_cast h
  simp [get_class_color, h0, h1, Int.toNat_natCast]

theorem get_class_color_natCast_ge (r : Registry) (i : Nat)
    (h : r.COLORS.length ≤ i) : get_class_color r (i : Int) = (0, 255, 0) := by
  have h1 : ¬ ((i : Int) < (r.COLORS.length : Int)) := by
    push_neg
    exact_mod_cast h
  simp [get_class_color, h1]

theorem map_title_getD (l : List (Int × String)) (i : Nat) (h : i < l.length) :
    (l.map fun p => pyTitle p.2).getD i "" =
      pyTitle ((l.map Prod.snd).getD i "") := by
  rw [List.getD_eq_getElem _ _ (by simpa using h),
    List.getD_eq_getElem _ _ (by simpa using h)]
  simp [List.getElem_map]

/-! ## Claims -/

/-- Claim C1: for every frame, every confidence threshold τ and every cap
K ≥ 0, the annotation loop accepts exactly the detections with confidence ≥ τ,
taken in the model-native output order, stopping once K detections have been
accepted — i.e. the working copy receives precisely the drawing commands of
the length-K prefix of the threshold-filtered raw detections, and the
reported detection count is that prefix's length.  In particular, with K = 1
and raw confidences 0.9 and 0.8 both above τ = 0.5, only the first-in-order
detection is drawn and the second is discarded. -/
theorem claim_C1_threshold_cap_order :
    (∀ (r : Registry) (τ : ℚ) (K : Nat) (model : Img → Results) (σ : Store)
        (f : Nat),
      ((process_frame r τ K model σ f).1.mem
          (process_frame r τ K model σ f).2.1).ops =
        (σ.mem f).ops ++
          (acceptedBoxes τ K (rawBoxes (model (σ.mem f)))).flatMap
            (boxCmds r) ∧
      (process_frame r τ K model σ f).2.2 =
        (acceptedBoxes τ K (rawBoxes (model (σ.mem f)))).length) ∧
    (process_frame defaultRegistry (mkRat 1 2) 1
        (fun _ => [some [exBox (mkRat 9 10), exBox (mkRat 4 5)]])
        exStore 0).2.2 = 1 ∧
    ((process_frame defaultRegistry (mkRat 1 2) 1
        (fun _ => [some [exBox (mkRat 9 10), exBox (mkRat 4 5)]])
        exStore 0).1.mem
      (process_frame defaultRegistry (mkRat 1 2) 1
        (fun _ => [some [exBox (mkRat 9 10), exBox (mkRat 4 5)]])
        exStore 0).2.1).ops =
      boxCmds defaultRegistry (exBox (mkRat 9 10)) := by
  refine ⟨fun r τ K model σ f => ?_, by decide, by decide⟩
  rw [process_frame_pid, process_frame_mem_pid, process_frame_count]
  exact ⟨rfl, rfl⟩

/-- Claim C3: for every video source with N ≥ 0 decodable frames and every
skip interval S ≥ 1, `process_video_file` runs the annotation step exactly
on the frames whose 0-based number is divisible by S, counts every decoded
frame toward the reported total, and reports one processed frame (and one
`out_detected` write) per selected frame number. -/
theorem claim_C3_frame_skip (r : Registry) (τ : ℚ) (K : Nat) (S : Nat)
    (model : Img → Results) (frames : List Img) (σ : Store) (_hS : 1 ≤ S) :
    (process_video_file r τ K S model frames σ).2.total_frames =
      frames.length ∧
    (process_video_file r τ K S model frames σ).1.processed_numbers =
      (List.range frames.length).filter (fun i => decide (i % S = 0)) ∧
    (process_video_file r τ K S model frames σ).1.processed_frames_count =
      ((List.range frames.length).filter (fun i => decide (i % S = 0))).length ∧
    (process_video_file r τ K S model frames σ).1.out_detected.length =
      ((List.range frames.length).filter
        (fun i => decide (i % S = 0))).length := by
  obtain ⟨h1, h2, h3, h4, h5⟩ :=
    videoLoop_counts r τ K S model frames (initRunState σ)
  refine ⟨rfl, ?_, ?_, ?_⟩
  · rw [show (process_video_file r τ K S model frames σ).1 =
      videoLoop r τ K S model frames (initRunState σ) from rfl, h3]
    simp [initRunState, List.range_eq_range']
  · rw [show (process_video_file r τ K S model frames σ).1 =
      videoLoop r τ K S model frames (initRunState σ) from rfl, h4]
    simp [initRunState, List.range_eq_range']
  · rw [show (process_video_file r τ K S model frames σ).1 =
      videoLoop r τ K S model frames (initRunState σ) from rfl, h5]
    simp [initRunState, List.range_eq_range']

/-- Witness for C3: a 23-frame source with skip interval 5 reports
`total_frames = 23` and processes exactly the 5 frames numbered
0, 5, 10, 15, 20. -/
theorem claim_C3_witness :
    (process_video_file defaultRegistry (mkRat 1 2) 20 5 (fun _ => [])
      (List.replicate 23 exImg) emptyStore).2.total_frames = 23 ∧
    (process_video_file defaultRegistry (mkRat 1 2) 20 5 (fun _ => [])
      (List.replicate 23 exImg) emptyStore).1.processed_numbers =
      [0, 5, 10, 15, 20] ∧
    (process_video_file defaultRegistry (mkRat 1 2) 20 5 (fun _ => [])
      (List.replicate 23 exImg) emptyStore).1.processed_frames_count = 5 := by
  obtain ⟨h1, h2, h3, _⟩ := claim_C3_frame_skip defaultRegistry (mkRat 1 2) 20 5
    (fun _ => []) (List.replicate 23 exImg) emptyStore (by decide)
  refine ⟨by rw [h1]; decide, by rw [h2]; decide, by rw [h3]; decide⟩

/-- Claim C4: for every integer class id outside the corresponding table's
index range, `get_class_name` and `get_class_name_short` return the
placeholder `"Unknown_<id>"` and `get_class_color` returns the default green
`(0, 255, 0)`; the lookups are total functions, so no id raises an error. -/
theorem claim_C4_unknown_fallback (r : Registry) (id : Int) :
    (¬ (0 ≤ id ∧ id < (r.EXPECTED_CLASSES.length : Int)) →
      get_class_name r id = "Unknown_" ++ toString id) ∧
    (¬ (0 ≤ id ∧ id < (r.DISPLAY_NAMES.length : Int)) →
      get_class_name_short r id = "Unknown_" ++ toString id) ∧
    (¬ (0 ≤ id ∧ id < (r.COLORS.length : Int)) →
      get_class_color r id = (0, 255, 0)) := by
  refine ⟨fun h => ?_, fun h => ?_, fun h => ?_⟩
  · rw [get_class_name, if_neg h]
  · rw [get_class_name_short, if_neg h]
  · rw [get_class_color, if_neg h]

/-- Witness for C4 at the out-of-range ids 99 and -1 on the default
tables. -/
theorem claim_C4_witness :
    get_class_name defaultRegistry 99 = "Unknown_" ++ toString (99 : Int) ∧
    get_class_name_short defaultRegistry (-1) =
      "Unknown_" ++ toString (-1 : Int) ∧
    get_class_color defaultRegistry 99 = (0, 255, 0) := by
  refine ⟨(claim_C4_unknown_fallback defaultRegistry 99).1 (by decide),
    (claim_C4_unknown_fallback defaultRegistry (-1)).2.1 (by decide),
    (claim_C4_unknown_fallback defaultRegistry 99).2.2 (by decide)⟩

/-- Claim C6: replacing the registry from an empty label mapping leaves it
unchanged, in both the `app.py` variant (whose `else` branch only emits a
warning) and the `trash_classes.py` variant (whose falsy guard skips the
update): the short-name and display-name tables after the call are the ones
from before. -/
theorem claim_C6_empty_mapping_noop (r : Registry) :
    App.update_mapping_from_model [] r = r ∧
    TrashClasses.update_mapping_from_model [] r = r := by
  exact ⟨rfl, rfl⟩

/-- Counterexample for C2 as stated: the claim quantifies over "the registry
replacement operation" and cites both implementations, but the
`trash_classes.py` variant does not sort — replacing from the mapping with
iteration order `{2: "can", 0: "mask", 1: "glove"}` yields the short names
in iteration order `["can", "mask", "glove"]`, not the claimed id-sorted
`["mask", "glove", "can"]`. -/
theorem claim_C2_counterexample :
    ¬ ((TrashClasses.update_mapping_from_model
          [(2, "can"), (0, "mask"), (1, "glove")]
          defaultRegistry).EXPECTED_CLASSES = ["mask", "glove", "can"]) ∧
    (TrashClasses.update_mapping_from_model
        [(2, "can"), (0, "mask"), (1, "glove")]
        defaultRegistry).EXPECTED_CLASSES = ["can", "mask", "glove"] := by
  decide

/-- Claim C2 (amended): the `app.py` registry replacement sorts every
non-empty mapping by ascending id and rebuilds the short-name table as the
id-sorted names and the display-name table as their title-cased forms — in
particular `{2: "can", 0: "mask", 1: "glove"}` yields
`["mask", "glove", "can"]` and `["Mask", "Glove", "Can"]`; the
`trash_classes.py` variant instead rebuilds both tables from the mapping's
values in iteration order (so it yields the id-sorted result only when the
mapping is already ascending by id). -/
theorem claim_C2_sorted_rebuild (m : List (Int × String)) (r : Registry)
    (hm : m ≠ []) :
    (∃ ms : List (Int × String), ms.Perm m ∧
      ms.Pairwise (fun a b => a.1 ≤ b.1) ∧
      (App.update_mapping_from_model m r).EXPECTED_CLASSES =
        ms.map Prod.snd ∧
      (App.update_mapping_from_model m r).DISPLAY_NAMES =
        (ms.map fun p => pyTitle p.2)) ∧
    (TrashClasses.update_mapping_from_model m r).EXPECTED_CLASSES =
      m.map Prod.snd ∧
    (TrashClasses.update_mapping_from_model m r).DISPLAY_NAMES =
      (m.map fun p => pyTitle p.2) ∧
    (App.update_mapping_from_model [(2, "can"), (0, "mask"), (1, "glove")]
      r).EXPECTED_CLASSES = ["mask", "glove", "can"] ∧
    (App.update_mapping_from_model [(2, "can"), (0, "mask"), (1, "glove")]
      r).DISPLAY_NAMES = ["Mask", "Glove", "Can"] := by
  haveI hTot : IsTotal (Int × String) keyLe := ⟨fun a b => Int.le_total a.1 b.1⟩
  haveI hTr : IsTrans (Int × String) keyLe :=
    ⟨fun _ _ _ hab hbc => le_trans hab hbc⟩
  refine ⟨⟨List.insertionSort keyLe m, List.perm_insertionSort keyLe m,
    List.sorted_insertionSort keyLe m, ?_, ?_⟩, ?_, ?_, ?_, ?_⟩
  · simp [App.update_mapping_from_model, hm]
  · simp [App.update_mapping_from_model, hm]
  · simp [TrashClasses.update_mapping_from_model, hm]
  · simp [TrashClasses.update_mapping_from_model, hm]
  · show (List.insertionSort keyLe
      [(2, "can"), (0, "mask"), (1, "glove")]).map Prod.snd =
        ["mask", "glove", "can"]
    decide
  · show ((List.insertionSort keyLe
      [(2, "can"), (0, "mask"), (1, "glove")]).map fun p => pyTitle p.2) =
        ["Mask", "Glove", "Can"]
    decide

/-- Witness for the amended C2 at the spec's worked example. -/
theorem claim_C2_witness :
    ([(2, "can"), (0, "mask"), (1, "glove")] : List (Int × String)) ≠ [] ∧
    (App.update_mapping_from_model [(2, "can"), (0, "mask"), (1, "glove")]
      defaultRegistry).EXPECTED_CLASSES = ["mask", "glove", "can"] ∧
    (App.update_mapping_from_model [(2, "can"), (0, "mask"), (1, "glove")]
      defaultRegistry).DISPLAY_NAMES = ["Mask", "Glove", "Can"] := by
  have h := claim_C2_sorted_rebuild [(2, "can"), (0, "mask"), (1, "glove")]
    defaultRegistry (by decide)
  exact ⟨by decide, h.2.2.2.1, h.2.2.2.2⟩

/-- Claim C5: replacing the registry from a non-empty model label set does
not touch the color table, and afterwards the color resolved for position i
is the palette color at position i — positional reuse, independent of the
entry's original id. -/
theorem claim_C5_palette_positional (m : List (Int × String)) (r : Registry)
    (hm : m ≠ []) :
    (App.update_mapping_from_model m r).COLORS = r.COLORS ∧
    ∀ i : Nat, i < r.COLORS.length →
      get_class_color (App.update_mapping_from_model m r) (i : Int) =
        r.COLORS.getD i (0, 255, 0) := by
  have hc : (App.update_mapping_from_model m r).COLORS = r.COLORS := by
    simp [App.update_mapping_from_model, hm]
  refine ⟨hc, fun i hi => ?_⟩
  rw [get_class_color_natCast _ i (by rw [hc]; exact hi), hc]

/-- Witness for C5: after replacing from `[(5, "x")]`, position 1 still
resolves to palette color 1. -/
theorem claim_C5_witness :
    ([(5, "x")] : List (Int × String)) ≠ [] ∧
    (App.update_mapping_from_model [(5, "x")] defaultRegistry).COLORS =
      defaultRegistry.COLORS ∧
    get_class_color (App.update_mapping_from_model [(5, "x")] defaultRegistry)
      ((1 : Nat) : Int) = defaultRegistry.COLORS.getD 1 (0, 255, 0) := by
  have h := claim_C5_palette_positional [(5, "x")] defaultRegistry (by decide)
  exact ⟨by decide, h.1, h.2 1 (by decide)⟩

/-- Claim C7: annotation draws only on the working copy — the per-frame step
(shared by the video path and the webcam path) leaves every previously
allocated buffer, in particular the input frame, unchanged; and a whole
`process_video_file` run leaves every decoded frame buffer holding exactly
the decoded frame. -/
theorem claim_C7_no_input_mutation :
    (∀ (r : Registry) (τ : ℚ) (K : Nat) (model : Img → Results) (σ : Store)
        (f q : Nat), q < σ.next →
      (process_frame r τ K model σ f).1.mem q = σ.mem q) ∧
    (∀ (vt : VideoTransformer) (r : Registry) (model : Img → Results)
        (σ : Store) (imgId q : Nat), q < σ.next →
      (vt.process_frame_cached r model σ imgId).1.mem q = σ.mem q) ∧
    (∀ (r : Registry) (τ : ℚ) (K S : Nat) (model : Img → Results)
        (frames : List Img) (σ : Store),
      (process_video_file r τ K S model frames σ).1.out_original = frames ∧
      (process_video_file r τ K S model frames σ).1.frame_ids.length =
        frames.length ∧
      ∀ p ∈ (process_video_file r τ K S model frames σ).1.frame_ids.zip
          frames,
        (process_video_file r τ K S model frames σ).1.σ.mem p.1 = p.2) := by
  have h1 : ∀ (r : Registry) (τ : ℚ) (K : Nat) (model : Img → Results)
      (σ : Store) (f q : Nat), q < σ.next →
      (process_frame r τ K model σ f).1.mem q = σ.mem q := by
    intro r τ K model σ f q hq
    exact process_frame_mem_ne r τ K model σ f (Nat.ne_of_lt hq)
  refine ⟨h1, fun vt r model σ imgId q hq => h1 _ _ _ _ _ _ _ hq, ?_⟩
  intro r τ K S model frames σ
  have e : (process_video_file r τ K S model frames σ).1 =
      videoLoop r τ K S model frames (initRunState σ) := rfl
  have horig : (videoLoop r τ K S model frames (initRunState σ)).out_original =
      frames := by
    rw [(videoLoop_counts r τ K S model frames (initRunState σ)).2.1]
    simp [initRunState]
  have hintact : FramesIntact (videoLoop r τ K S model frames
      (initRunState σ)) :=
    videoLoop_intact r τ K S model frames (initRunState σ)
      ⟨rfl, fun p hp => absurd hp (by simp [initRunState])⟩
  obtain ⟨hlen, hmem⟩ := hintact
  refine ⟨by rw [e]; exact horig, by rw [e, hlen, horig], ?_⟩
  intro p hp
  rw [e] at hp ⊢
  refine (hmem p ?_).2
  rw [horig]
  exact hp

/-- Witness for C7: with a one-frame store and a one-frame video, the input
buffers still hold their original contents afterwards. -/
theorem claim_C7_witness :
    (0 : Nat) < exStore.next ∧
    (process_frame defaultRegistry (mkRat 1 2) 1 (fun _ => [])
      exStore 0).1.mem 0 = exStore.mem 0 ∧
    ((0 : Nat), exImg) ∈ (process_video_file defaultRegistry (mkRat 1 2) 1 1
      (fun _ => []) [exImg] emptyStore).1.frame_ids.zip [exImg] ∧
    (process_video_file defaultRegistry (mkRat 1 2) 1 1 (fun _ => [])
      [exImg] emptyStore).1.σ.mem 0 = exImg := by
  refine ⟨by decide,
    claim_C7_no_input_mutation.1 defaultRegistry (mkRat 1 2) 1 (fun _ => [])
      exStore 0 0 (by decide),
    by decide, ?_⟩
  exact (claim_C7_no_input_mutation.2.2 defaultRegistry (mkRat 1 2) 1 1
    (fun _ => []) [exImg] emptyStore).2.2 ((0 : Nat), exImg) (by decide)

/-- Claim C8: session retrieval is at-most-once — on a buffer with distinct
tokens, the first `take` of a stored token returns its session and removes
the entry, a second `take` of the same token reports not-found, and `take`
of a token that was never stored reports not-found and leaves the buffer
unchanged.  (The session buffer is modelled from the spec; no implementation
exists under `src/`.) -/
theorem claim_C8_take_at_most_once (buf : SessionBuffer) (token : Nat) :
    ((buf.map Prod.fst).Nodup → ∀ s : Session, (token, s) ∈ buf →
      (SessionBuffer.take token buf).1 = some s ∧
      (SessionBuffer.take token (SessionBuffer.take token buf).2).1 = none) ∧
    (token ∉ buf.map Prod.fst →
      SessionBuffer.take token buf = (none, buf)) := by
  refine ⟨fun hnd s hm => ?_, fun h => SessionBuffer.take_not_mem token buf h⟩
  obtain ⟨h1, h2⟩ := SessionBuffer.take_mem token s buf hnd hm
  refine ⟨h1, ?_⟩
  rw [SessionBuffer.take_not_mem token _ h2]

/-- Witness for C8 on a one-entry buffer. -/
theorem claim_C8_witness :
    (SessionBuffer.take 1 [(1, exSession)]).1 = some exSession ∧
    (SessionBuffer.take 1 (SessionBuffer.take 1 [(1, exSession)]).2).1 =
      none ∧
    SessionBuffer.take 2 [(1, exSession)] = (none, [(1, exSession)]) := by
  have h := (claim_C8_take_at_most_once [(1, exSession)] 1).1 (by decide)
    exSession (by decide)
  exact ⟨h.1, h.2, (claim_C8_take_at_most_once [(1, exSession)] 2).2
    (by decide)⟩

/-- Claim C9: a registry replacement never extends the color palette — the
`trash_classes.py` replacement leaves `COLORS` unchanged, so with a 15-color
table and a mapping of n > 15 labels, every position 15 ≤ i < n resolves its
name to the i-th new label but its color to the default green (0, 255, 0):
names and colors desynchronize beyond the palette. -/
theorem claim_C9_palette_not_extended (m : List (Int × String)) (r : Registry)
    (h15 : r.COLORS.length = 15) (hn : 15 < m.length) :
    (TrashClasses.update_mapping_from_model m r).COLORS = r.COLORS ∧
    ∀ i : Nat, 15 ≤ i → i < m.length →
      get_class_name (TrashClasses.update_mapping_from_model m r) (i : Int) =
        (m.map Prod.snd).getD i "" ∧
      get_class_color (TrashClasses.update_mapping_from_model m r) (i : Int) =
        (0, 255, 0) := by
  have hm : m ≠ [] := by
    intro h
    rw [h] at hn
    simp at hn
  have hE : (TrashClasses.update_mapping_from_model m r).EXPECTED_CLASSES =
      m.map Prod.snd := by
    simp [TrashClasses.update_mapping_from_model, hm]
  have hC : (TrashClasses.update_mapping_from_model m r).COLORS = r.COLORS := by
    simp [TrashClasses.update_mapping_from_model, hm]
  refine ⟨hC, fun i h15i him => ⟨?_, ?_⟩⟩
  · have hi : i < (TrashClasses.update_mapping_from_model
        m r).EXPECTED_CLASSES.length := by
      rw [hE]
      simpa using him
    rw [get_class_name_natCast _ i hi, hE]
  · apply get_class_color_natCast_ge
    rw [hC, h15]
    exact h15i

/-- Witness for C9 on a 16-label mapping over the default 15-color table,
at position 15. -/
theorem claim_C9_witness :
    (TrashClasses.update_mapping_from_model exMap16 defaultRegistry).COLORS =
      defaultRegistry.COLORS ∧
    get_class_name (TrashClasses.update_mapping_from_model exMap16
      defaultRegistry) ((15 : Nat) : Int) = (exMap16.map Prod.snd).getD 15 "" ∧
    get_class_color (TrashClasses.update_mapping_from_model exMap16
      defaultRegistry) ((15 : Nat) : Int) = (0, 255, 0) := by
  have h := claim_C9_palette_not_extended exMap16 defaultRegistry (by decide)
    (by decide)
  exact ⟨h.1, (h.2 15 (by decide) (by decide)).1,
    (h.2 15 (by decide) (by decide)).2⟩

/-- Claim C10: after every registry replacement from a non-empty mapping,
both variants leave the short-name and display-name tables of equal length
with the display name at each index the title-cased form of the short name
at that index. -/
theorem claim_C10_display_title_of_short (m : List (Int × String))
    (r : Registry) (hm : m ≠ []) :
    (App.update_mapping_from_model m r).DISPLAY_NAMES.length =
      (App.update_mapping_from_model m r).EXPECTED_CLASSES.length ∧
    (∀ i : Nat,
      i < (App.update_mapping_from_model m r).EXPECTED_CLASSES.length →
      (App.update_mapping_from_model m r).DISPLAY_NAMES.getD i "" =
        pyTitle
          ((App.update_mapping_from_model m r).EXPECTED_CLASSES.getD i "")) ∧
    (TrashClasses.update_mapping_from_model m r).DISPLAY_NAMES.length =
      (TrashClasses.update_mapping_from_model m r).EXPECTED_CLASSES.length ∧
    (∀ i : Nat,
      i < (TrashClasses.update_mapping_from_model
        m r).EXPECTED_CLASSES.length →
      (TrashClasses.update_mapping_from_model m r).DISPLAY_NAMES.getD i "" =
        pyTitle ((TrashClasses.update_mapping_from_model
          m r).EXPECTED_CLASSES.getD i "")) := by
  have hAE : (App.update_mapping_from_model m r).EXPECTED_CLASSES =
      (List.insertionSort keyLe m).map Prod.snd := by
    simp [App.update_mapping_from_model, hm]
  have hAD : (App.update_mapping_from_model m r).DISPLAY_NAMES =
      ((List.insertionSort keyLe m).map fun p => pyTitle p.2) := by
    simp [App.update_mapping_from_model, hm]
  have hTE : (TrashClasses.update_mapping_from_model m r).EXPECTED_CLASSES =
      m.map Prod.snd := by
    simp [TrashClasses.update_mapping_from_model, hm]
  have hTD : (TrashClasses.update_mapping_from_model m r).DISPLAY_NAMES =
      (m.map fun p => pyTitle p.2) := by
    simp [TrashClasses.update_mapping_from_model, hm]
  refine ⟨by rw [hAE, hAD]; simp, fun i hi => ?_, by rw [hTE, hTD]; simp,
    fun i hi => ?_⟩
  · rw [hAE] at hi
    rw [hAD, hAE]
    exact map_title_getD _ i (by simpa using hi)
  · rw [hTE] at hi
    rw [hTD, hTE]
    exact map_title_getD _ i (by simpa using hi)

/-- Witness for C10 at the mapping `[(0, "glass bottle")]` (title-casing
capitalizes each word). -/
theorem claim_C10_witness :
    ([(0, "glass bottle")] : List (Int × String)) ≠ [] ∧
    (App.update_mapping_from_model [(0, "glass bottle")]
      defaultRegistry).DISPLAY_NAMES.getD 0 "" =
      pyTitle ((App.update_mapping_from_model [(0, "glass bottle")]
        defaultRegistry).EXPECTED_CLASSES.getD 0 "") ∧
    (TrashClasses.update_mapping_from_model [(0, "glass bottle")]
      defaultRegistry).DISPLAY_NAMES.getD 0 "" =
      pyTitle ((TrashClasses.update_mapping_from_model [(0, "glass bottle")]
        defaultRegistry).EXPECTED_CLASSES.getD 0 "") := by
  have h := claim_C10_display_title_of_short [(0, "glass bottle")]
    defaultRegistry (by decide)
  exact ⟨by decide, h.2.1 0 (by decide), h.2.2.2 0 (by decide)⟩

end UTD
